import Mathlib

set_option maxRecDepth 100000

/-!
Verification of the spack-installer-cli job queue system.

This file gives a shallow embedding, in Lean 4, of the parts of the
repository that the specification claims talk about:

* `src/spack_installer/scheduler.py` — the pure scheduling functions
  (`calculate_job_score`, `get_next_job`, `optimize_job_order`);
* `src/spack_installer/database.py` — the JSON job store
  (`create_job`, `update_job_status`, `add_job_log`, `cleanup_old_jobs`,
  `create_retry_job`);
* `src/spack_installer/queue_manager.py` — the lifecycle operations
  (`cancel_job`, `mark_job_running`, `mark_job_completed`);
* `src/spack_installer/worker.py` — the normal-exit and timeout handling
  of `_run_command_with_streaming`;
* `src/spack_installer/worker_daemon.py` — the `cancel_job` RPC handler.

Python floats are modelled as `Rat` (all the constants involved are small
decimals, so rational arithmetic is exact on every input considered here),
`datetime.utcnow()` values as rational POSIX seconds passed in explicitly
as a `now` argument, and dictionaries whose keys may be absent as `Option`
fields (`none` meaning the key is absent from the stored record).
-/

/-! ## Data model (models.py: JobStatus, JobPriority) -/

/-- Job status enumeration, from `models.JobStatus`. -/
inductive JobStatus where
  | pending
  | running
  | completed
  | failed
  | cancelled
deriving DecidableEq

/-- Job priority enumeration, from `models.JobPriority`. -/
inductive JobPriority where
  | low
  | medium
  | high
deriving DecidableEq

/-- Priority weights, from `JobScheduler.__init__` (`priority_weights`). -/
def priorityWeight : JobPriority → Rat
  | .high => 3
  | .medium => 2
  | .low => 1

/-- The job view the scheduler operates on, as produced by
`QueueManager._dict_to_job_object`: id, package name, priority, estimated
time, dependency list, submission time and status. -/
structure SJob where
  id : Nat
  packageName : String
  priority : JobPriority
  estimatedTime : Rat
  dependencies : List String
  submittedAt : Rat
  status : JobStatus
deriving DecidableEq

/-! ## Scheduler (scheduler.py) -/

/-- The package names that appear as keys of the dependency graph built by
`JobScheduler._build_dependency_graph`: one key per distinct package name
among the given jobs. -/
def graphKeys (jobs : List SJob) : List String :=
  (jobs.map (fun j => j.packageName)).dedup

/-- The dependency set associated to a package in the graph built by
`_build_dependency_graph`.  Python assigns `graph[job.package_name] =
set(job.dependencies_list)` for each job in order, so the last job with a
given package name wins. -/
def graphDeps (jobs : List SJob) (p : String) : List String :=
  match (jobs.filter (fun j => decide (j.packageName = p))).getLast? with
  | some j => j.dependencies
  | none => []

/-- `JobScheduler._count_unlocked_jobs`: the number of graph entries whose
dependency set contains the given package. -/
def countUnlockedJobs (jobs : List SJob) (p : String) : Nat :=
  ((graphKeys jobs).filter (fun q => decide (p ∈ graphDeps jobs q))).length

/-- `JobScheduler.calculate_job_score` at wall-clock time `now`:
`(4 - priorityWeight) * 100 + dependencyCount * 10 +
min(estimatedTime/3600, 2) * 5 - min(ageHours, 24) * 2 -
unlockedJobs * 15`. -/
def calculateJobScore (now : Rat) (pendingJobs : List SJob) (j : SJob) : Rat :=
  (4 - priorityWeight j.priority) * 100
    + (j.dependencies.length : Rat) * 10
    + min (j.estimatedTime / 3600) 2 * 5
    - min ((now - j.submittedAt) / 3600) 24 * 2
    - (countUnlockedJobs pendingJobs j.packageName : Rat) * 15

/-- Readiness check from `JobScheduler._find_ready_jobs`: all declared
dependencies are among the installed package names. -/
def isReady (installed : List String) (j : SJob) : Bool :=
  j.dependencies.all (fun d => decide (d ∈ installed))

/-- The pending sublist `[job for job in jobs if job.status == PENDING]`
that both `get_next_job` and `optimize_job_order` start from. -/
def schedPending (jobs : List SJob) : List SJob :=
  jobs.filter (fun j => decide (j.status = .pending))

/-- The ready jobs of `_find_ready_jobs`: pending jobs whose dependency
set is a subset of the installed set. -/
def readyJobs (jobs : List SJob) (installed : List String) : List SJob :=
  (schedPending jobs).filter (isReady installed)

/-- The heap key used by `get_next_job`: the tuple `(score, job.id)`
compared lexicographically, as Python compares the tuples pushed onto the
heap (the third tuple component, the job itself, is never compared when
ids are distinct). -/
def heapKey (now : Rat) (pendingJobs : List SJob) (j : SJob) : Rat ×ₗ Nat :=
  toLex (calculateJobScore now pendingJobs j, j.id)

/-- Select, from `first :: rest`, an element with the least `key`, keeping
the earlier element on ties.  This is how a Python `heapq` push-all /
pop-one (or `min`) resolves on the tuples involved. -/
def argminKey {α β : Type} [LinearOrder β] (key : α → β) : α → List α → α
  | best, [] => best
  | best, x :: rest => argminKey key (if key x < key best then x else best) rest

/-- `JobScheduler.get_next_job`: filter to pending jobs, filter to ready
jobs, score every ready job against the dependency graph of all pending
jobs, and return the job with the least `(score, id)`; `none` when no job
is ready. -/
def getNextJob (now : Rat) (jobs : List SJob) (installed : List String) : Option SJob :=
  let pendingJobs := schedPending jobs
  if pendingJobs.isEmpty then none
  else
    match pendingJobs.filter (isReady installed) with
    | [] => none
    | r :: rs => some (argminKey (heapKey now pendingJobs) r rs)

/-- The fallback key of `optimize_job_order`:
`(-priority_weight, len(dependencies), submitted_at)` compared
lexicographically; Python `min` keeps the earliest minimum. -/
def fallbackKey (j : SJob) : Rat ×ₗ (Nat ×ₗ Rat) :=
  toLex (-(priorityWeight j.priority), toLex (j.dependencies.length, j.submittedAt))

/-- One selection of the `optimize_job_order` loop: the `get_next_job`
result over the remaining jobs, or — when no job is ready (circular or
externally-unsatisfied dependencies) — the Python `min` fallback with key
`(-priority_weight, len(dependencies), submitted_at)`. -/
def optNext (now : Rat) (installed : List String) (r : SJob) (rs : List SJob) : SJob :=
  match getNextJob now (r :: rs) installed with
  | some j => j
  | none => argminKey fallbackKey r rs

/-- The loop body of `JobScheduler.optimize_job_order`, with fuel: pick
the next job, append it, treat its package as installed, and remove it
(`list.remove`: first occurrence) from the remaining list.  The fuel is an
upper bound on the number of iterations; each iteration removes one
element, so `remaining.length` suffices. -/
def optimizeGo (now : Rat) : Nat → List String → List SJob → List SJob
  | 0, _, _ => []
  | n + 1, installed, remaining =>
    match remaining with
    | [] => []
    | r :: rs =>
      optNext now installed r rs ::
        optimizeGo now n ((optNext now installed r rs).packageName :: installed)
          ((r :: rs).erase (optNext now installed r rs))

/-- `JobScheduler.optimize_job_order`. -/
def optimizeJobOrder (now : Rat) (jobs : List SJob) : List SJob :=
  optimizeGo now (schedPending jobs).length [] (schedPending jobs)

example :
    getNextJob 0
      [⟨1, "a", .medium, 0, [], 0, .pending⟩, ⟨2, "b", .medium, 0, ["a"], 0, .pending⟩]
      [] = some ⟨1, "a", .medium, 0, [], 0, .pending⟩ := by decide

example :
    optimizeJobOrder 0
      [⟨1, "a", .medium, 0, [], 0, .pending⟩, ⟨2, "b", .medium, 0, ["a"], 0, .pending⟩,
       ⟨3, "c", .medium, 0, ["b"], 0, .pending⟩] =
      [⟨1, "a", .medium, 0, [], 0, .pending⟩, ⟨2, "b", .medium, 0, ["a"], 0, .pending⟩,
       ⟨3, "c", .medium, 0, ["b"], 0, .pending⟩] := by decide

/-! ## Configuration constants (config.py, environment defaults) -/

/-- `Config.DEFAULT_MAX_RETRIES` (default value of `SPACK_INSTALLER_MAX_RETRIES`). -/
def DEFAULT_MAX_RETRIES : Nat := 3

/-- `Config.RETRY_BACKOFF_FACTOR` (default value of `SPACK_INSTALLER_RETRY_BACKOFF`). -/
def RETRY_BACKOFF_FACTOR : Rat := 2

/-- `Config.DEFAULT_RETRY_DELAY` (default value of `SPACK_INSTALLER_RETRY_DELAY`), seconds. -/
def DEFAULT_RETRY_DELAY : Rat := 60

/-- `Config.DEFAULT_JOB_TIMEOUT_MULTIPLIER` (default value of `JOB_TIMEOUT_MULTIPLIER`). -/
def DEFAULT_JOB_TIMEOUT_MULTIPLIER : Rat := 2

/-! ## Job store (database.py: JSONDatabase)

A stored job is the dictionary appended to `data["jobs"]`.  The retry
fields may be absent from a record (jobs created by `create_job` do not
have them); absence is modelled as `none` in the outer `Option`.  For
`last_retry_at` and `original_job_id` the stored value itself may be null,
hence the nested `Option`. -/

/-- One record of `data["jobs"]`. -/
structure StoredJob where
  id : Nat
  packageName : String
  priority : JobPriority
  status : JobStatus
  estimatedTime : Rat
  actualTime : Option Rat
  submittedBy : String
  submittedAt : Rat
  startedAt : Option Rat
  completedAt : Option Rat
  spackCommand : Option String
  errorMessage : Option String
  dependencies : List String
  retryCount : Option Nat
  maxRetries : Option Nat
  lastRetryAt : Option (Option Rat)
  retryDelay : Option Rat
  isRetry : Option Bool
  originalJobId : Option (Option Nat)
deriving DecidableEq

/-- One record of `data["logs"]`. -/
structure LogEntry where
  id : Nat
  jobId : Nat
  timestamp : Rat
  level : String
  message : String
deriving DecidableEq

/-- The persisted state `{jobs, logs, next_job_id}`.  The `worker_status`
field is omitted: no claim under consideration mentions it, and no
operation modelled here reads or writes it. -/
structure Store where
  jobs : List StoredJob
  logs : List LogEntry
  nextJobId : Nat
deriving DecidableEq

/-- The freshly initialised store, from `JSONDatabase._initialize_db`. -/
def initStore : Store := { jobs := [], logs := [], nextJobId := 1 }

/-- Status strings as persisted (`JobStatus.value` in Python). -/
def statusValue : JobStatus → String
  | .pending => "pending"
  | .running => "running"
  | .completed => "completed"
  | .failed => "failed"
  | .cancelled => "cancelled"

/-- Append one log entry with `id = len(data["logs"]) + 1`, the scheme
every log append in `database.py` uses. -/
def appendLog (s : Store) (jobId : Nat) (now : Rat) (level message : String) : Store :=
  let entry : LogEntry :=
    { id := s.logs.length + 1, jobId := jobId, timestamp := now,
      level := level, message := message }
  { s with logs := s.logs ++ [entry] }

/-- Replace the first job whose id is `jobId` (Python scans `data["jobs"]`
in order and mutates the first hit). -/
def setFirstJob (jobId : Nat) (f : StoredJob → StoredJob) : List StoredJob → List StoredJob
  | [] => []
  | j :: rest =>
    if j.id = jobId then f j :: rest else j :: setFirstJob jobId f rest

/-- Find a job record by id (first hit), as the Python scans do. -/
def findJob (s : Store) (jobId : Nat) : Option StoredJob :=
  s.jobs.find? (fun j => decide (j.id = jobId))

/-- The status of the job with the given id, if any. -/
def jobStatusOf (s : Store) (jobId : Nat) : Option JobStatus :=
  (findJob s jobId).map (fun j => j.status)

/-- `JSONDatabase.create_job`.  When a job with the same package name is
`pending` or `running`, Python raises `ValueError` mentioning the
existing job id and `_transaction` skips the write, so the store is
returned unchanged together with `Except.error` carrying that id.
Otherwise the new pending job (id `next_job_id`) and a submission log
entry are appended and the id counter is incremented. -/
def createJob (now : Rat) (s : Store) (packageName : String) (priority : JobPriority)
    (estimatedTime : Rat) (submittedBy : String) (spackCommand : Option String)
    (dependencies : List String) : Store × Except Nat StoredJob :=
  match s.jobs.find? (fun j => decide (j.packageName = packageName) &&
      (decide (j.status = .pending) || decide (j.status = .running))) with
  | some existing => (s, .error existing.id)
  | none =>
    let job : StoredJob :=
      { id := s.nextJobId, packageName := packageName, priority := priority,
        status := .pending, estimatedTime := estimatedTime, actualTime := none,
        submittedBy := submittedBy, submittedAt := now, startedAt := none,
        completedAt := none, spackCommand := spackCommand, errorMessage := none,
        dependencies := dependencies, retryCount := none, maxRetries := none,
        lastRetryAt := none, retryDelay := none, isRetry := none, originalJobId := none }
    let s1 : Store := { s with jobs := s.jobs ++ [job], nextJobId := s.nextJobId + 1 }
    (appendLog s1 job.id now "INFO" ("Job submitted for package " ++ packageName),
      .ok job)

/-- The in-place mutation `update_job_status` applies to the found job
record: overwrite the status, and overwrite each optional field only when
a value was supplied. -/
def applyStatusUpdate (status : JobStatus)
    (startedAt completedAt actualTime : Option Rat) (errorMessage : Option String)
    (j : StoredJob) : StoredJob :=
  { j with
    status := status,
    startedAt := (match startedAt with | some v => some v | none => j.startedAt),
    completedAt := (match completedAt with | some v => some v | none => j.completedAt),
    actualTime := (match actualTime with | some v => some v | none => j.actualTime),
    errorMessage := (match errorMessage with
      | some v => some v
      | none => j.errorMessage) }

/-- `JSONDatabase.update_job_status`: find the job (first hit), apply
`applyStatusUpdate` to it, and append a status-change log entry (level
ERROR when the new status is failed).  Returns `false` and leaves the
store unchanged when the id is unknown. -/
def updateJobStatus (now : Rat) (s : Store) (jobId : Nat) (status : JobStatus)
    (startedAt completedAt actualTime : Option Rat) (errorMessage : Option String) :
    Store × Bool :=
  match findJob s jobId with
  | none => (s, false)
  | some _ =>
    let jobs1 := setFirstJob jobId
      (applyStatusUpdate status startedAt completedAt actualTime errorMessage) s.jobs
    let message := "Job status changed to " ++ statusValue status ++
      (match errorMessage with
       | some e => if e = "" then "" else ": " ++ e
       | none => "")
    let level := if status = .failed then "ERROR" else "INFO"
    (appendLog { s with jobs := jobs1 } jobId now level message, true)

/-- `JSONDatabase.add_job_log`. -/
def addJobLog (now : Rat) (s : Store) (jobId : Nat) (level message : String) :
    Store × Bool :=
  (appendLog s jobId now level message, true)

/-- `JSONDatabase.cleanup_old_jobs`: drop terminal jobs whose
`completed_at` is set and strictly older than `now - keep_days` days,
then drop the log entries of the dropped jobs.  Returns the new store and
the number of deleted jobs. -/
def cleanupOldJobs (now : Rat) (s : Store) (keepDays : Nat) : Store × Nat :=
  let cutoff := now - (keepDays : Rat) * 86400
  let keep := fun (j : StoredJob) =>
    !((decide (j.status = .completed) || decide (j.status = .failed) ||
        decide (j.status = .cancelled)) &&
      (match j.completedAt with
       | some t => decide (t < cutoff)
       | none => false))
  let jobsKeep := s.jobs.filter keep
  let keptIds := jobsKeep.map (fun j => j.id)
  let logs1 := s.logs.filter (fun l => keptIds.contains l.jobId)
  ({ s with jobs := jobsKeep, logs := logs1 }, s.jobs.length - jobsKeep.length)

/-- The backward-compatibility defaulting `create_retry_job` applies to the
original record before checking retry eligibility: every absent retry
field is materialised with its default value. -/
def defaultRetryFields (j : StoredJob) : StoredJob :=
  { j with
    retryCount := some (j.retryCount.getD 0),
    maxRetries := some (j.maxRetries.getD DEFAULT_MAX_RETRIES),
    lastRetryAt := some (j.lastRetryAt.getD none),
    retryDelay := some (j.retryDelay.getD DEFAULT_RETRY_DELAY),
    isRetry := some (j.isRetry.getD false),
    originalJobId := some (j.originalJobId.getD none) }

/-- The mutation `create_retry_job` applies to the original record after
creating the retry job: increment the retry count and stamp
`last_retry_at`. -/
def stampRetryOnOriginal (rc1 : Nat) (now : Rat) (j : StoredJob) : StoredJob :=
  { j with retryCount := some rc1, lastRetryAt := some (some now) }

/-- `JSONDatabase.create_retry_job`.  Returns `none` (and no new job) when
the original job is missing, not failed, or out of retries; otherwise
appends a new pending job carrying `retry_count + 1` and
`retry_delay = original.retry_delay * RETRY_BACKOFF_FACTOR ^ retry_count`,
increments the original record's retry count, stamps its `last_retry_at`,
and appends two log entries.  Note that in the out-of-retries branch
Python has already mutated the original record with the defaulted retry
fields, and `_transaction` persists that (returning normally writes the
data back), so the store is returned with the defaulting applied. -/
def createRetryJob (now : Rat) (s : Store) (originalJobId : Nat) :
    Store × Option StoredJob :=
  match findJob s originalJobId with
  | none => (s, none)
  | some orig =>
    if orig.status ≠ .failed then (s, none)
    else
      let dOrig := defaultRetryFields orig
      let s1 : Store := { s with jobs := setFirstJob originalJobId defaultRetryFields s.jobs }
      let rc := orig.retryCount.getD 0
      let mr := orig.maxRetries.getD DEFAULT_MAX_RETRIES
      if rc ≥ mr then (s1, none)
      else
        let rc1 := rc + 1
        let delay := orig.retryDelay.getD DEFAULT_RETRY_DELAY *
          RETRY_BACKOFF_FACTOR ^ (rc1 - 1)
        let retryJob : StoredJob :=
          { id := s1.nextJobId, packageName := orig.packageName,
            priority := orig.priority, status := .pending,
            estimatedTime := orig.estimatedTime, actualTime := none,
            submittedBy := orig.submittedBy, submittedAt := now,
            startedAt := none, completedAt := none,
            spackCommand := orig.spackCommand, errorMessage := none,
            dependencies := orig.dependencies, retryCount := some rc1,
            maxRetries := some mr, lastRetryAt := some (some now),
            retryDelay := some delay, isRetry := some true,
            originalJobId := some (dOrig.originalJobId.getD none) }
        let s2 : Store := { s1 with
          jobs := s1.jobs ++ [retryJob],
          nextJobId := s1.nextJobId + 1 }
        let s3 : Store := { s2 with
          jobs := setFirstJob originalJobId (stampRetryOnOriginal rc1 now) s2.jobs }
        let s4 := appendLog s3 retryJob.id now "INFO"
          ("Retry job created (attempt " ++ toString rc1 ++ "/" ++ toString mr ++
            ") for original job " ++ toString originalJobId)
        let s5 := appendLog s4 originalJobId now "INFO"
          ("Retry attempt " ++ toString rc1 ++ " created as job " ++
            toString retryJob.id ++ ", next retry delay: " ++ toString delay ++ "s")
        (s5, some retryJob)

/-! ## Queue manager lifecycle operations (queue_manager.py) -/

/-- `QueueManager.cancel_job`: only a pending job may be cancelled; on
success the status becomes cancelled and `completed_at` is stamped with
the cancellation time (no `started_at` is supplied, so it is left as it
was). -/
def cancelJob (now : Rat) (s : Store) (jobId : Nat) : Store × Bool :=
  match findJob s jobId with
  | none => (s, false)
  | some j =>
    if j.status ≠ .pending then (s, false)
    else updateJobStatus now s jobId .cancelled none (some now) none none

/-- `QueueManager.mark_job_running`: only a pending job may start; on
success the status becomes running and `started_at` is stamped. -/
def markJobRunning (now : Rat) (s : Store) (jobId : Nat) : Store × Bool :=
  match findJob s jobId with
  | none => (s, false)
  | some j =>
    if j.status ≠ .pending then (s, false)
    else updateJobStatus now s jobId .running (some now) none none none

/-- `QueueManager.mark_job_completed`: only a running job may finish; the
status becomes completed on success and failed otherwise, `completed_at`
is stamped, and `actual_time` is `completed_at - started_at` when
`started_at` is set. -/
def markJobCompleted (now : Rat) (s : Store) (jobId : Nat) (success : Bool)
    (errorMessage : Option String) : Store × Bool :=
  match findJob s jobId with
  | none => (s, false)
  | some j =>
    if j.status ≠ .running then (s, false)
    else
      let actualTime := (match j.startedAt with
        | some t => some (now - t)
        | none => none)
      updateJobStatus now s jobId (if success then .completed else .failed)
        none (some now) actualTime errorMessage

/-! ## Worker subprocess execution (worker.py:
InstallationWorker._run_command_with_streaming) -/

/-- Lower-case a string character by character, as Python
`str.lower()` does for the ASCII text involved here. -/
def toLowerStr (s : String) : String :=
  String.mk (s.data.map Char.toLower)

/-- The error-indicating keywords scanned for in the output. -/
def errorKeywordList : List String := ["error", "failed", "cannot", "unable"]

/-- Whether `pat` occurs as a contiguous run inside `l`, the meaning of
the Python substring test `pat in l`. -/
def hasInfix (l pat : List Char) : Bool :=
  match l with
  | [] => pat.isEmpty
  | _ :: t => pat.isPrefixOf l || hasInfix t pat

/-- Whether a line contains one of the error keywords, case-insensitively
(Python: `any(keyword in line.lower() for keyword in [...])`). -/
def containsErrorKeyword (line : String) : Bool :=
  errorKeywordList.any (fun k => hasInfix (toLowerStr line).data k.data)

/-- The failure summary built after a nonzero exit: the exit code, plus
the last line among the final five collected output lines
(`stdout_lines[-5:]`, scanned in reverse) that contains an error keyword,
truncated to its first 100 characters. -/
def summarizeFailure (returnCode : Int) (stdoutLines : List String) : String :=
  let base := "Exit code " ++ toString returnCode
  let lastLines := stdoutLines.drop (stdoutLines.length - 5)
  match lastLines.reverse.find? containsErrorKeyword with
  | some line => base ++ ": " ++ line.take 100
  | none => base

/-- The normal-exit tail of `_run_command_with_streaming`: exit code 0
yields success with no error message; a nonzero exit code yields failure
with the summary error message.  The worker then feeds this pair to
`mark_job_completed`, so the first component decides completed/failed. -/
def commandOutcome (returnCode : Int) (stdoutLines : List String) :
    Bool × Option String :=
  if returnCode = 0 then (true, none)
  else (false, some (summarizeFailure returnCode stdoutLines))

/-- One observed iteration of the streaming loop.  `checkElapsed` is the
elapsed time (seconds since process start) when the loop-top timeout check
runs; `line` is what the subsequent blocking `readline()` returns —
`some l` for an output line, `none` when the stream is at end-of-file and
`poll()` reports that the process has exited.  Because `readline()`
blocks, a new check only happens after the previous read returned: a
subprocess that stays silent produces no events between the initial check
and its own exit. -/
structure StreamEvent where
  checkElapsed : Rat
  line : Option String
deriving DecidableEq

/-- Result of the streaming loop: the completed/failed flag and error
message eventually reported, whether `terminate()`/`kill()` was invoked,
and the collected output lines. -/
structure StreamResult where
  success : Bool
  errorMessage : Option String
  terminated : Bool
  collected : List String
deriving DecidableEq

/-- The timeout message of the streaming loop. -/
def timeoutMessage (timeoutSeconds : Rat) : String :=
  "Installation timed out after " ++ toString timeoutSeconds ++ " seconds"

/-- The streaming loop of `_run_command_with_streaming` over a sequence of
observed iterations: each iteration first compares the elapsed time
against the timeout (terminating the process and failing the job on
expiry), then reads; an end-of-file read breaks out of the loop and the
exit code decides the outcome, and empty lines are not collected. -/
def streamRun (timeoutSeconds : Rat) (returnCode : Int) :
    List StreamEvent → List String → StreamResult
  | [], acc =>
    let (ok, err) := commandOutcome returnCode acc
    { success := ok, errorMessage := err, terminated := false, collected := acc }
  | ev :: rest, acc =>
    if ev.checkElapsed > timeoutSeconds then
      { success := false, errorMessage := some (timeoutMessage timeoutSeconds),
        terminated := true, collected := acc }
    else
      match ev.line with
      | none =>
        let (ok, err) := commandOutcome returnCode acc
        { success := ok, errorMessage := err, terminated := false, collected := acc }
      | some l => streamRun timeoutSeconds returnCode rest
          (if l = "" then acc else acc ++ [l])

/-! ## RPC cancel handler (worker_daemon.py: SpackJobHandler._handle_cancel_job) -/

/-- The response envelope the handler writes for a cancel request:
either the success envelope with the data payload written by
`_send_response` — i.e. the boolean returned by
`QueueManager.cancel_job` — or the error envelope written by
`_send_error`. -/
inductive CancelRpcResponse where
  | ok (cancelled : Bool)
  | rpcError (message : String)
deriving DecidableEq

/-- `SpackJobHandler._handle_cancel_job`: a missing (or falsy, hence also
zero) `job_id` parameter yields an error envelope; otherwise the result of
`QueueManager.cancel_job` is wrapped in a success envelope, whatever its
value. -/
def handleCancelJob (now : Rat) (s : Store) (jobId : Option Nat) :
    Store × CancelRpcResponse :=
  match jobId with
  | none => (s, .rpcError "Missing job_id parameter")
  | some jid =>
    if jid = 0 then (s, .rpcError "Missing job_id parameter")
    else
      let (s1, ok) := cancelJob now s jid
      (s1, .ok ok)

/-! ## Helper lemmas about argminKey and getNextJob -/

theorem argminKey_mem {α β : Type} [LinearOrder β] (key : α → β) (b : α) (l : List α) :
    argminKey key b l ∈ b :: l := by
  induction l generalizing b with
  | nil => simp [argminKey]
  | cons x rest ih =>
    simp only [argminKey]
    have hc : (if key x < key b then x else b) = x ∨
        (if key x < key b then x else b) = b := by
      by_cases h : key x < key b <;> simp [h]
    have hm := ih (if key x < key b then x else b)
    rcases List.mem_cons.mp hm with h1 | h1
    · rcases hc with h2 | h2 <;> rw [h1, h2] <;> simp
    · simp [h1]

theorem argminKey_le {α β : Type} [LinearOrder β] (key : α → β) (b : α) (l : List α) :
    ∀ x ∈ b :: l, key (argminKey key b l) ≤ key x := by
  induction l generalizing b with
  | nil =>
    intro x hx
    rcases List.mem_cons.mp hx with rfl | hx1
    · exact le_refl _
    · exact absurd hx1 (List.not_mem_nil x)
  | cons y rest ih =>
    intro x hx
    simp only [argminKey]
    have hcb : key (if key y < key b then y else b) ≤ key b := by
      by_cases h : key y < key b <;> simp [h, le_of_lt]
    have hcy : key (if key y < key b then y else b) ≤ key y := by
      by_cases h : key y < key b <;> simp [h, le_of_not_lt]
    have hmin := ih (if key y < key b then y else b) _
      (List.mem_cons_self (if key y < key b then y else b) rest)
    rcases List.mem_cons.mp hx with rfl | hx1
    · exact le_trans hmin hcb
    rcases List.mem_cons.mp hx1 with rfl | hx2
    · exact le_trans hmin hcy
    · exact ih _ x (List.mem_cons.mpr (Or.inr hx2))

theorem getNextJob_none_iff (now : Rat) (jobs : List SJob) (installed : List String) :
    getNextJob now jobs installed = none ↔ readyJobs jobs installed = [] := by
  unfold getNextJob readyJobs
  by_cases hp : (schedPending jobs).isEmpty
  · rw [List.isEmpty_iff] at hp
    simp [hp]
  · simp only [hp, Bool.false_eq_true, if_false]
    cases hr : (schedPending jobs).filter (isReady installed) with
    | nil => simp
    | cons r rs => simp

theorem getNextJob_some_spec (now : Rat) (jobs : List SJob) (installed : List String)
    (j : SJob) (h : getNextJob now jobs installed = some j) :
    j ∈ readyJobs jobs installed ∧
      ∀ k ∈ readyJobs jobs installed,
        heapKey now (schedPending jobs) j ≤ heapKey now (schedPending jobs) k := by
  unfold getNextJob at h
  by_cases hp : (schedPending jobs).isEmpty
  · simp [hp] at h
  · simp only [hp, Bool.false_eq_true, if_false] at h
    rcases hr : (schedPending jobs).filter (isReady installed) with _ | ⟨r, rs⟩
    · rw [hr] at h; exact absurd h (by simp)
    · rw [hr] at h
      simp only [Option.some.injEq] at h
      subst h
      have hready : readyJobs jobs installed = r :: rs := hr
      rw [hready]
      exact ⟨argminKey_mem _ r rs, argminKey_le _ r rs⟩

theorem getNextJob_mem (now : Rat) (jobs : List SJob) (installed : List String)
    (j : SJob) (h : getNextJob now jobs installed = some j) : j ∈ jobs := by
  have hm := (getNextJob_some_spec now jobs installed j h).1
  unfold readyJobs schedPending at hm
  exact List.mem_of_mem_filter (List.mem_of_mem_filter hm)

/-! ## Claim C1 -/

/-- C1, claim-side score ingredient: the unlock count as the claim words
it — the number of OTHER pending jobs that list this job's package as a
dependency (the code instead counts dependency-graph entries, which also
counts the job itself when it depends on its own package, and collapses
duplicate package names). -/
def specUnlockCount (pendingJobs : List SJob) (j : SJob) : Nat :=
  (pendingJobs.filter (fun k => !decide (k = j) &&
    decide (j.packageName ∈ k.dependencies))).length

/-- C1, claim-side score: identical to `calculateJobScore` except that the
unlock count is `specUnlockCount`. -/
def specScore (now : Rat) (pendingJobs : List SJob) (j : SJob) : Rat :=
  (4 - priorityWeight j.priority) * 100
    + (j.dependencies.length : Rat) * 10
    + min (j.estimatedTime / 3600) 2 * 5
    - min ((now - j.submittedAt) / 3600) 24 * 2
    - (specUnlockCount pendingJobs j : Rat) * 15

/-- A pending job that lists its own package as a dependency. -/
def cexSelfDep : SJob := ⟨1, "A", .medium, 0, ["A"], 0, .pending⟩

/-- A pending dependency-free job. -/
def cexPlain : SJob := ⟨2, "B", .medium, 0, [], 0, .pending⟩

/-- C1 counterexample: with package A installed, the self-dependent job
`cexSelfDep` and the dependency-free job `cexPlain` are both ready, and
under the score of the claim (unlockCount counting only OTHER pending
jobs) `cexPlain` has the strictly smaller score (200 against 210), so the
claim demands `cexPlain`; the code counts the self-dependency as an
unlock, scores `cexSelfDep` at 195, and returns `cexSelfDep`. -/
theorem getNextJob_other_jobs_cex :
    getNextJob 0 [cexSelfDep, cexPlain] ["A"] = some cexSelfDep ∧
    cexPlain ∈ readyJobs [cexSelfDep, cexPlain] ["A"] ∧
    specScore 0 (schedPending [cexSelfDep, cexPlain]) cexPlain <
      specScore 0 (schedPending [cexSelfDep, cexPlain]) cexSelfDep := by
  refine ⟨?_, by decide, ?_⟩
  · norm_num +decide [getNextJob, schedPending, isReady, argminKey, heapKey,
      calculateJobScore, countUnlockedJobs, graphKeys, graphDeps, cexSelfDep, cexPlain,
      priorityWeight, Prod.Lex.lt_iff]
  · norm_num +decide [specScore, specUnlockCount, schedPending, cexSelfDep, cexPlain,
      priorityWeight]

/-- C1 (amended): for every job list and installed set, the ready jobs are
exactly the pending jobs whose dependency set is contained in the
installed set; `getNextJob` returns `none` exactly when no job is ready,
and otherwise returns a ready job whose pair (score, id) is
lexicographically least among the ready jobs — i.e. the minimum-score
ready job with ties broken by ascending job id — where the score is
`(4 - priorityWeight) * 100 + dependencyCount * 10 +
min(estimatedHours, 2) * 5 - min(ageHours, 24) * 2 - unlockCount * 15`
and unlockCount is the number of dependency-graph entries (one per
distinct pending package name, the job itself included when it depends on
its own package) whose dependency set contains the job's package. -/
theorem getNextJob_characterization :
    ∀ (now : Rat) (jobs : List SJob) (installed : List String),
    (∀ k, k ∈ readyJobs jobs installed ↔
      (k ∈ jobs ∧ k.status = .pending ∧ ∀ d ∈ k.dependencies, d ∈ installed)) ∧
    (getNextJob now jobs installed = none ↔ readyJobs jobs installed = []) ∧
    (∀ j, getNextJob now jobs installed = some j →
      j ∈ readyJobs jobs installed ∧
      ∀ k ∈ readyJobs jobs installed,
        heapKey now (schedPending jobs) j ≤ heapKey now (schedPending jobs) k) := by
  intro now jobs installed
  refine ⟨?_, getNextJob_none_iff now jobs installed,
    fun j h => getNextJob_some_spec now jobs installed j h⟩
  intro k
  unfold readyJobs schedPending
  simp only [List.mem_filter, isReady, List.all_eq_true, decide_eq_true_eq]
  tauto

/-- C1 witness: on a single dependency-free pending job the characterized
minimum is attained by that job, which is therefore ready. -/
theorem getNextJob_characterization_witness :
    (⟨1, "a", JobPriority.medium, 0, [], 0, JobStatus.pending⟩ : SJob) ∈
      readyJobs [⟨1, "a", JobPriority.medium, 0, [], 0, JobStatus.pending⟩] [] := by
  have h := (getNextJob_characterization 0
    [⟨1, "a", JobPriority.medium, 0, [], 0, JobStatus.pending⟩] []).2.2
    ⟨1, "a", JobPriority.medium, 0, [], 0, JobStatus.pending⟩ rfl
  exact h.1

/-! ## Claim C5 -/

theorem optNext_mem (now : Rat) (installed : List String) (r : SJob) (rs : List SJob) :
    optNext now installed r rs ∈ r :: rs := by
  unfold optNext
  cases hg : getNextJob now (r :: rs) installed with
  | some j => exact getNextJob_mem now (r :: rs) installed j hg
  | none => exact argminKey_mem fallbackKey r rs

theorem optimizeGo_perm (n : Nat) :
    ∀ (now : Rat) (installed : List String) (remaining : List SJob),
    remaining.length ≤ n → List.Perm (optimizeGo now n installed remaining) remaining := by
  induction n with
  | zero =>
    intro now installed remaining h
    rw [List.eq_nil_of_length_eq_zero (Nat.le_zero.mp h)]
    exact List.Perm.refl _
  | succ n ih =>
    intro now installed remaining h
    cases remaining with
    | nil => exact List.Perm.refl _
    | cons r rs =>
      have hmem := optNext_mem now installed r rs
      have hperm : List.Perm (r :: rs) (optNext now installed r rs :: (r :: rs).erase
          (optNext now installed r rs)) := List.perm_cons_erase hmem
      have hlen : ((r :: rs).erase (optNext now installed r rs)).length ≤ n := by
        rw [List.length_erase_of_mem hmem]
        exact Nat.le_of_succ_le_succ h
      exact (List.Perm.cons _ (ih now _ _ hlen)).trans hperm.symm

/-- Job A of the chain example: no dependencies. -/
def chainJobA : SJob := ⟨1, "A", .medium, 0, [], 0, .pending⟩

/-- Job B of the chain example: depends on A. -/
def chainJobB : SJob := ⟨2, "B", .medium, 0, ["A"], 0, .pending⟩

/-- Job C of the chain example: depends on B. -/
def chainJobC : SJob := ⟨3, "C", .medium, 0, ["B"], 0, .pending⟩

/-- C5: `optimizeJobOrder` returns a permutation of the pending input
jobs — every pending input job appears exactly once, whatever its
dependencies (the fallback guarantees progress on circular or
unsatisfiable dependency sets) — and on the chain A, B depending on A,
C depending on B it returns the order A, B, C. -/
theorem optimizeJobOrder_covers :
    (∀ (now : Rat) (jobs : List SJob), List.Perm (optimizeJobOrder now jobs) (schedPending jobs)) ∧
    optimizeJobOrder 0 [chainJobA, chainJobB, chainJobC] =
      [chainJobA, chainJobB, chainJobC] := by
  constructor
  · intro now jobs
    exact optimizeGo_perm (schedPending jobs).length now [] (schedPending jobs)
      (Nat.le_refl _)
  · decide

/-! ## Claim C2 -/

/-- C2: whenever the store holds a job with the requested package name in
status pending or running, `createJob` leaves the store completely
unchanged (no new job, no log entry, `next_job_id` untouched) and reports
the rejection as an error carrying the id of such an existing active job
for the package. -/
theorem createJob_rejects_duplicate :
    ∀ (now : Rat) (s : Store) (pkg : String) (prio : JobPriority) (est : Rat)
      (user : String) (cmd : Option String) (deps : List String) (j : StoredJob),
    j ∈ s.jobs → j.packageName = pkg → (j.status = .pending ∨ j.status = .running) →
    (createJob now s pkg prio est user cmd deps).1 = s ∧
    ∃ ex ∈ s.jobs, ex.packageName = pkg ∧
      (ex.status = .pending ∨ ex.status = .running) ∧
      (createJob now s pkg prio est user cmd deps).2 = .error ex.id := by
  intro now s pkg prio est user cmd deps j hmem hpkg hstat
  have hfind : s.jobs.find? (fun k => decide (k.packageName = pkg) &&
      (decide (k.status = JobStatus.pending) || decide (k.status = JobStatus.running)))
      ≠ none := by
    intro hnone
    have := List.find?_eq_none.mp hnone j hmem
    simp only [Bool.and_eq_true, Bool.or_eq_true, decide_eq_true_eq] at this
    exact this ⟨hpkg, by rcases hstat with h | h <;> simp [h]⟩
  rcases hex : s.jobs.find? (fun k => decide (k.packageName = pkg) &&
      (decide (k.status = JobStatus.pending) || decide (k.status = JobStatus.running)))
    with _ | ex
  · exact absurd hex hfind
  · have hexmem := List.mem_of_find?_eq_some hex
    have hexp := List.find?_some hex
    simp only [Bool.and_eq_true, Bool.or_eq_true, decide_eq_true_eq] at hexp
    constructor
    · unfold createJob
      rw [hex]
    · refine ⟨ex, hexmem, hexp.1, hexp.2, ?_⟩
      unfold createJob
      rw [hex]

/-- A store holding one active (pending) job for package foo. -/
def dupJob : StoredJob :=
  { id := 7, packageName := "foo", priority := .medium, status := .pending,
    estimatedTime := 10, actualTime := none, submittedBy := "u", submittedAt := 0,
    startedAt := none, completedAt := none, spackCommand := none,
    errorMessage := none, dependencies := [], retryCount := none,
    maxRetries := none, lastRetryAt := none, retryDelay := none, isRetry := none,
    originalJobId := none }

/-- A one-job store used as concrete input. -/
def dupStore : Store := { jobs := [dupJob], logs := [], nextJobId := 8 }

/-- C2 witness: submitting foo against `dupStore` changes nothing and
reports job id 7. -/
theorem createJob_rejects_duplicate_witness :
    (createJob 3 dupStore "foo" .medium 1 "v" none []).1 = dupStore ∧
    ∃ ex ∈ dupStore.jobs, ex.packageName = "foo" ∧
      (ex.status = .pending ∨ ex.status = .running) ∧
      (createJob 3 dupStore "foo" .medium 1 "v" none []).2 = .error ex.id :=
  createJob_rejects_duplicate 3 dupStore "foo" .medium 1 "v" none [] dupJob
    (List.mem_cons_self dupJob []) rfl (Or.inl rfl)


/-! ## Claim C3 -/

theorem setFirstJob_find?_self (jid : Nat) (f : StoredJob → StoredJob)
    (l : List StoredJob) (hf : ∀ j, (f j).id = j.id) :
    (setFirstJob jid f l).find? (fun j => decide (j.id = jid)) =
      (l.find? (fun j => decide (j.id = jid))).map f := by
  induction l with
  | nil => rfl
  | cons j rest ih =>
    rw [setFirstJob]
    by_cases h : j.id = jid
    · rw [if_pos h]
      rw [List.find?_cons_of_pos rest (by simp [hf j, h])]
      rw [List.find?_cons_of_pos rest (by simp [h])]
      rfl
    · rw [if_neg h]
      rw [List.find?_cons_of_neg (setFirstJob jid f rest) (by simp [h])]
      rw [List.find?_cons_of_neg rest (by simp [h])]
      exact ih

theorem setFirstJob_find?_other (jid i : Nat) (hne : i ≠ jid)
    (f : StoredJob → StoredJob) (l : List StoredJob) (hf : ∀ j, (f j).id = j.id) :
    (setFirstJob jid f l).find? (fun j => decide (j.id = i)) =
      l.find? (fun j => decide (j.id = i)) := by
  induction l with
  | nil => rfl
  | cons j rest ih =>
    rw [setFirstJob]
    by_cases h : j.id = jid
    · rw [if_pos h]
      have hji : ¬ j.id = i := fun hc => hne (hc ▸ h ▸ rfl)
      have hfi : ¬ (f j).id = i := by rw [hf j]; exact hji
      rw [List.find?_cons_of_neg rest (by simp [hfi])]
      rw [List.find?_cons_of_neg rest (by simp [hji])]
    · rw [if_neg h]
      by_cases h2 : j.id = i
      · rw [List.find?_cons_of_pos (setFirstJob jid f rest) (by simp [h2])]
        rw [List.find?_cons_of_pos rest (by simp [h2])]
      · rw [List.find?_cons_of_neg (setFirstJob jid f rest) (by simp [h2])]
        rw [List.find?_cons_of_neg rest (by simp [h2])]
        exact ih

theorem appendLog_jobs (s : Store) (jid : Nat) (now : Rat) (level message : String) :
    (appendLog s jid now level message).jobs = s.jobs := rfl

theorem applyStatusUpdate_id (st : JobStatus) (sa ca at' : Option Rat)
    (em : Option String) (j : StoredJob) :
    (applyStatusUpdate st sa ca at' em j).id = j.id := rfl

theorem updateJobStatus_found_snd (now : Rat) (s : Store) (jid : Nat)
    (st : JobStatus) (sa ca at' : Option Rat) (em : Option String) (j : StoredJob)
    (hf : findJob s jid = some j) :
    (updateJobStatus now s jid st sa ca at' em).2 = true := by
  unfold updateJobStatus
  rw [hf]

theorem updateJobStatus_found_record (now : Rat) (s : Store) (jid : Nat)
    (st : JobStatus) (sa ca at' : Option Rat) (em : Option String) (j : StoredJob)
    (hf : findJob s jid = some j) :
    findJob (updateJobStatus now s jid st sa ca at' em).1 jid =
      some (applyStatusUpdate st sa ca at' em j) := by
  unfold updateJobStatus
  rw [hf]
  show (appendLog _ _ _ _ _).jobs.find? _ = _
  rw [appendLog_jobs]
  show (setFirstJob jid (applyStatusUpdate st sa ca at' em) s.jobs).find? _ = _
  rw [setFirstJob_find?_self jid (applyStatusUpdate st sa ca at' em) s.jobs
    (applyStatusUpdate_id st sa ca at' em)]
  unfold findJob at hf
  rw [hf]
  rfl

theorem updateJobStatus_found_status (now : Rat) (s : Store) (jid : Nat)
    (st : JobStatus) (sa ca at' : Option Rat) (em : Option String) (j : StoredJob)
    (hf : findJob s jid = some j) :
    jobStatusOf (updateJobStatus now s jid st sa ca at' em).1 jid = some st := by
  unfold jobStatusOf
  rw [updateJobStatus_found_record now s jid st sa ca at' em j hf]
  rfl

theorem updateJobStatus_other_status (now : Rat) (s : Store) (jid : Nat)
    (st : JobStatus) (sa ca at' : Option Rat) (em : Option String) (i : Nat)
    (hne : i ≠ jid) :
    jobStatusOf (updateJobStatus now s jid st sa ca at' em).1 i = jobStatusOf s i := by
  unfold updateJobStatus
  cases hf : findJob s jid with
  | none => rfl
  | some j =>
    unfold jobStatusOf findJob
    rw [appendLog_jobs]
    show ((setFirstJob jid (applyStatusUpdate st sa ca at' em) s.jobs).find? _).map _ = _
    rw [setFirstJob_find?_other jid i hne (applyStatusUpdate st sa ca at' em) s.jobs
      (applyStatusUpdate_id st sa ca at' em)]

theorem cancelJob_true_iff (now : Rat) (s : Store) (jid : Nat) :
    (cancelJob now s jid).2 = true ↔ jobStatusOf s jid = some .pending := by
  unfold cancelJob jobStatusOf
  cases hf : findJob s jid with
  | none => simp
  | some j =>
    by_cases hst : j.status = JobStatus.pending
    · simp only [hst, ne_eq, not_true_eq_false, if_false, Option.map_some']
      constructor
      · intro _
        simp [hst]
      · intro _
        exact updateJobStatus_found_snd now s jid _ _ _ _ _ j hf
    · simp [hst]

theorem cancelJob_false_unchanged (now : Rat) (s : Store) (jid : Nat)
    (h : (cancelJob now s jid).2 = false) : (cancelJob now s jid).1 = s := by
  unfold cancelJob at h ⊢
  cases hf : findJob s jid with
  | none => rfl
  | some j =>
    rw [hf] at h
    dsimp only at h ⊢
    by_cases hst : j.status = JobStatus.pending
    · exfalso
      simp only [hst, ne_eq, not_true_eq_false, if_false] at h
      rw [updateJobStatus_found_snd now s jid _ _ _ _ _ j hf] at h
      exact Bool.true_eq_false.mp h
    · simp [hst]

theorem cancelJob_pending_status (now : Rat) (s : Store) (jid : Nat)
    (h : jobStatusOf s jid = some .pending) :
    jobStatusOf (cancelJob now s jid).1 jid = some .cancelled := by
  unfold jobStatusOf at h
  cases hf : findJob s jid with
  | none => rw [hf] at h; exact absurd h (by simp)
  | some j =>
    rw [hf] at h
    have hst : j.status = JobStatus.pending := by simpa using h
    unfold cancelJob
    rw [hf]
    simp only [hst, ne_eq, not_true_eq_false, if_false]
    exact updateJobStatus_found_status now s jid _ _ _ _ _ j hf

theorem cancelJob_other_status (now : Rat) (s : Store) (jid i : Nat) (hne : i ≠ jid) :
    jobStatusOf (cancelJob now s jid).1 i = jobStatusOf s i := by
  unfold cancelJob
  cases hf : findJob s jid with
  | none => rfl
  | some j =>
    by_cases hst : j.status = JobStatus.pending
    · simp only [hst, ne_eq, not_true_eq_false, if_false]
      exact updateJobStatus_other_status now s jid _ _ _ _ _ i hne
    · simp [hst]

theorem markJobRunning_true_iff (now : Rat) (s : Store) (jid : Nat) :
    (markJobRunning now s jid).2 = true ↔ jobStatusOf s jid = some .pending := by
  unfold markJobRunning jobStatusOf
  cases hf : findJob s jid with
  | none => simp
  | some j =>
    by_cases hst : j.status = JobStatus.pending
    · simp only [hst, ne_eq, not_true_eq_false, if_false, Option.map_some']
      constructor
      · intro _
        simp [hst]
      · intro _
        exact updateJobStatus_found_snd now s jid _ _ _ _ _ j hf
    · simp [hst]

theorem markJobRunning_false_unchanged (now : Rat) (s : Store) (jid : Nat)
    (h : (markJobRunning now s jid).2 = false) : (markJobRunning now s jid).1 = s := by
  unfold markJobRunning at h ⊢
  cases hf : findJob s jid with
  | none => rfl
  | some j =>
    rw [hf] at h
    dsimp only at h ⊢
    by_cases hst : j.status = JobStatus.pending
    · exfalso
      simp only [hst, ne_eq, not_true_eq_false, if_false] at h
      rw [updateJobStatus_found_snd now s jid _ _ _ _ _ j hf] at h
      exact Bool.true_eq_false.mp h
    · simp [hst]

theorem markJobRunning_pending_status (now : Rat) (s : Store) (jid : Nat)
    (h : jobStatusOf s jid = some .pending) :
    jobStatusOf (markJobRunning now s jid).1 jid = some .running := by
  unfold jobStatusOf at h
  cases hf : findJob s jid with
  | none => rw [hf] at h; exact absurd h (by simp)
  | some j =>
    rw [hf] at h
    have hst : j.status = JobStatus.pending := by simpa using h
    unfold markJobRunning
    rw [hf]
    simp only [hst, ne_eq, not_true_eq_false, if_false]
    exact updateJobStatus_found_status now s jid _ _ _ _ _ j hf

theorem markJobRunning_other_status (now : Rat) (s : Store) (jid i : Nat)
    (hne : i ≠ jid) :
    jobStatusOf (markJobRunning now s jid).1 i = jobStatusOf s i := by
  unfold markJobRunning
  cases hf : findJob s jid with
  | none => rfl
  | some j =>
    by_cases hst : j.status = JobStatus.pending
    · simp only [hst, ne_eq, not_true_eq_false, if_false]
      exact updateJobStatus_other_status now s jid _ _ _ _ _ i hne
    · simp [hst]

theorem markJobCompleted_true_iff (now : Rat) (s : Store) (jid : Nat)
    (success : Bool) (em : Option String) :
    (markJobCompleted now s jid success em).2 = true ↔
      jobStatusOf s jid = some .running := by
  unfold markJobCompleted jobStatusOf
  cases hf : findJob s jid with
  | none => simp
  | some j =>
    by_cases hst : j.status = JobStatus.running
    · simp only [hst, ne_eq, not_true_eq_false, if_false, Option.map_some']
      constructor
      · intro _
        simp [hst]
      · intro _
        exact updateJobStatus_found_snd now s jid _ _ _ _ _ j hf
    · simp [hst]

theorem markJobCompleted_false_unchanged (now : Rat) (s : Store) (jid : Nat)
    (success : Bool) (em : Option String)
    (h : (markJobCompleted now s jid success em).2 = false) :
    (markJobCompleted now s jid success em).1 = s := by
  unfold markJobCompleted at h ⊢
  cases hf : findJob s jid with
  | none => rfl
  | some j =>
    rw [hf] at h
    dsimp only at h ⊢
    by_cases hst : j.status = JobStatus.running
    · exfalso
      simp only [hst, ne_eq, not_true_eq_false, if_false] at h
      rw [updateJobStatus_found_snd now s jid _ _ _ _ _ j hf] at h
      exact Bool.true_eq_false.mp h
    · simp [hst]

theorem markJobCompleted_running_status (now : Rat) (s : Store) (jid : Nat)
    (success : Bool) (em : Option String)
    (h : jobStatusOf s jid = some .running) :
    jobStatusOf (markJobCompleted now s jid success em).1 jid =
      some (if success then .completed else .failed) := by
  unfold jobStatusOf at h
  cases hf : findJob s jid with
  | none => rw [hf] at h; exact absurd h (by simp)
  | some j =>
    rw [hf] at h
    have hst : j.status = JobStatus.running := by simpa using h
    unfold markJobCompleted
    rw [hf]
    simp only [hst, ne_eq, not_true_eq_false, if_false]
    exact updateJobStatus_found_status now s jid _ _ _ _ _ j hf

theorem markJobCompleted_other_status (now : Rat) (s : Store) (jid i : Nat)
    (success : Bool) (em : Option String) (hne : i ≠ jid) :
    jobStatusOf (markJobCompleted now s jid success em).1 i = jobStatusOf s i := by
  unfold markJobCompleted
  cases hf : findJob s jid with
  | none => rfl
  | some j =>
    by_cases hst : j.status = JobStatus.running
    · simp only [hst, ne_eq, not_true_eq_false, if_false]
      exact updateJobStatus_other_status now s jid _ _ _ _ _ i hne
    · simp [hst]

/-- One Queue Manager lifecycle operation, with its target job id and the
wall-clock time at which it runs. -/
inductive QMOp where
  | cancel (now : Rat) (jobId : Nat)
  | markRunning (now : Rat) (jobId : Nat)
  | markCompleted (now : Rat) (jobId : Nat) (success : Bool)
      (errorMessage : Option String)

/-- The store after one Queue Manager lifecycle operation. -/
def applyQMOp (s : Store) : QMOp → Store
  | .cancel now jid => (cancelJob now s jid).1
  | .markRunning now jid => (markJobRunning now s jid).1
  | .markCompleted now jid ok em => (markJobCompleted now s jid ok em).1

/-- One legal observation step for a job status: unchanged, or one of the
transitions pending to running, pending to cancelled, running to
completed, running to failed. -/
def legalStep (a b : Option JobStatus) : Prop :=
  a = b ∨
    (a = some .pending ∧ (b = some .running ∨ b = some .cancelled)) ∨
    (a = some .running ∧ (b = some .completed ∨ b = some .failed))

theorem applyQMOp_legalStep (s : Store) (op : QMOp) (i : Nat) :
    legalStep (jobStatusOf s i) (jobStatusOf (applyQMOp s op) i) := by
  cases op with
  | cancel now jid =>
    by_cases hi : i = jid
    · subst hi
      by_cases hp : jobStatusOf s i = some .pending
      · exact Or.inr (Or.inl ⟨hp, Or.inr (cancelJob_pending_status now s i hp)⟩)
      · have h2 : (cancelJob now s i).2 = false := by
          cases h3 : (cancelJob now s i).2 with
          | true => exact absurd ((cancelJob_true_iff now s i).mp h3) hp
          | false => rfl
        refine Or.inl ?_
        show jobStatusOf s i = jobStatusOf (cancelJob now s i).1 i
        rw [cancelJob_false_unchanged now s i h2]
    · refine Or.inl ?_
      show jobStatusOf s i = jobStatusOf (cancelJob now s jid).1 i
      rw [cancelJob_other_status now s jid i hi]
  | markRunning now jid =>
    by_cases hi : i = jid
    · subst hi
      by_cases hp : jobStatusOf s i = some .pending
      · exact Or.inr (Or.inl ⟨hp, Or.inl (markJobRunning_pending_status now s i hp)⟩)
      · have h2 : (markJobRunning now s i).2 = false := by
          cases h3 : (markJobRunning now s i).2 with
          | true => exact absurd ((markJobRunning_true_iff now s i).mp h3) hp
          | false => rfl
        refine Or.inl ?_
        show jobStatusOf s i = jobStatusOf (markJobRunning now s i).1 i
        rw [markJobRunning_false_unchanged now s i h2]
    · refine Or.inl ?_
      show jobStatusOf s i = jobStatusOf (markJobRunning now s jid).1 i
      rw [markJobRunning_other_status now s jid i hi]
  | markCompleted now jid ok em =>
    by_cases hi : i = jid
    · subst hi
      by_cases hp : jobStatusOf s i = some .running
      · refine Or.inr (Or.inr ⟨hp, ?_⟩)
        have := markJobCompleted_running_status now s i ok em hp
        cases ok with
        | true => exact Or.inl (by simpa using this)
        | false => exact Or.inr (by simpa using this)
      · have h2 : (markJobCompleted now s i ok em).2 = false := by
          cases h3 : (markJobCompleted now s i ok em).2 with
          | true => exact absurd ((markJobCompleted_true_iff now s i ok em).mp h3) hp
          | false => rfl
        refine Or.inl ?_
        show jobStatusOf s i = jobStatusOf (markJobCompleted now s i ok em).1 i
        rw [markJobCompleted_false_unchanged now s i ok em h2]
    · refine Or.inl ?_
      show jobStatusOf s i = jobStatusOf (markJobCompleted now s jid ok em).1 i
      rw [markJobCompleted_other_status now s jid i ok em hi]

theorem scanl_status_chain (i : Nat) (ops : List QMOp) :
    ∀ (s : Store),
    List.Chain' legalStep ((List.scanl applyQMOp s ops).map (fun st => jobStatusOf st i)) := by
  induction ops with
  | nil =>
    intro s
    simp [List.scanl]
  | cons op rest ih =>
    intro s
    rw [List.scanl, List.map_cons, List.chain'_cons']
    constructor
    · intro b hb
      have hhead : ((List.scanl applyQMOp (applyQMOp s op) rest).map
          (fun st => jobStatusOf st i)).head? = some (jobStatusOf (applyQMOp s op) i) := by
        cases rest <;> rfl
      rw [hhead] at hb
      cases hb
      exact applyQMOp_legalStep s op i
    · exact ih (applyQMOp s op)

/-- C3: over every sequence of Queue Manager operations (cancel_job,
mark_job_running, mark_job_completed), the observed status sequence of
any job only ever takes legal steps — pending to running or cancelled,
running to completed or failed, otherwise unchanged — so it is a path
through pending, running, completed/failed or pending, cancelled.
Moreover cancel_job succeeds exactly on a pending job, mark_job_running
exactly on a pending job, mark_job_completed exactly on a running job
(moving it to completed on success and to failed otherwise), and each of
the three returns false and leaves the store — in particular the job's
status — unchanged in every other case. -/
theorem qmLifecycleTransitions :
    ∀ (jid : Nat),
    (∀ (s : Store) (ops : List QMOp),
      List.Chain' legalStep
        ((List.scanl applyQMOp s ops).map (fun st => jobStatusOf st jid))) ∧
    (∀ (s : Store) (now : Rat),
      ((cancelJob now s jid).2 = true ↔ jobStatusOf s jid = some .pending) ∧
      ((cancelJob now s jid).2 = false → (cancelJob now s jid).1 = s) ∧
      (jobStatusOf s jid = some .pending →
        jobStatusOf (cancelJob now s jid).1 jid = some .cancelled) ∧
      ((markJobRunning now s jid).2 = true ↔ jobStatusOf s jid = some .pending) ∧
      ((markJobRunning now s jid).2 = false → (markJobRunning now s jid).1 = s) ∧
      (jobStatusOf s jid = some .pending →
        jobStatusOf (markJobRunning now s jid).1 jid = some .running) ∧
      (∀ (success : Bool) (em : Option String),
        ((markJobCompleted now s jid success em).2 = true ↔
          jobStatusOf s jid = some .running) ∧
        ((markJobCompleted now s jid success em).2 = false →
          (markJobCompleted now s jid success em).1 = s) ∧
        (jobStatusOf s jid = some .running →
          jobStatusOf (markJobCompleted now s jid success em).1 jid =
            some (if success then .completed else .failed)))) := by
  intro jid
  constructor
  · intro s ops
    exact scanl_status_chain jid ops s
  · intro s now
    refine ⟨cancelJob_true_iff now s jid,
      cancelJob_false_unchanged now s jid,
      cancelJob_pending_status now s jid,
      markJobRunning_true_iff now s jid,
      markJobRunning_false_unchanged now s jid,
      markJobRunning_pending_status now s jid,
      fun success em => ⟨markJobCompleted_true_iff now s jid success em,
        markJobCompleted_false_unchanged now s jid success em,
        markJobCompleted_running_status now s jid success em⟩⟩

/-- A pending job with id 1, used as concrete input. -/
def pendJob : StoredJob :=
  { id := 1, packageName := "bar", priority := .medium, status := .pending,
    estimatedTime := 10, actualTime := none, submittedBy := "u", submittedAt := 0,
    startedAt := none, completedAt := none, spackCommand := none,
    errorMessage := none, dependencies := [], retryCount := none,
    maxRetries := none, lastRetryAt := none, retryDelay := none, isRetry := none,
    originalJobId := none }

/-- A store holding only `pendJob`, used as concrete input. -/
def pendStore : Store := { jobs := [pendJob], logs := [], nextJobId := 2 }

/-- C3 witness: cancelling the pending job of `pendStore` succeeds. -/
theorem qmLifecycleTransitions_witness : (cancelJob 5 pendStore 1).2 = true :=
  ((qmLifecycleTransitions 1).2 pendStore 5).1.mpr (by rfl)

/-! ## Claim C4 -/

theorem setFirstJob_length (jid : Nat) (f : StoredJob → StoredJob) (l : List StoredJob) :
    (setFirstJob jid f l).length = l.length := by
  induction l with
  | nil => rfl
  | cons j rest ih =>
    rw [setFirstJob]
    by_cases h : j.id = jid
    · rw [if_pos h]; rfl
    · rw [if_neg h]
      simp [ih]

theorem defaultRetryFields_id (j : StoredJob) : (defaultRetryFields j).id = j.id := rfl

theorem stampRetryOnOriginal_id (rc1 : Nat) (now : Rat) (j : StoredJob) :
    (stampRetryOnOriginal rc1 now j).id = j.id := rfl

theorem setFirstJob_append_of_found (jid : Nat) (f : StoredJob → StoredJob)
    (l1 l2 : List StoredJob)
    (h : (l1.find? (fun j => decide (j.id = jid))).isSome) :
    setFirstJob jid f (l1 ++ l2) = setFirstJob jid f l1 ++ l2 := by
  induction l1 with
  | nil => simp at h
  | cons j rest ih =>
    rw [List.cons_append]
    by_cases hj : j.id = jid
    · rw [setFirstJob, if_pos hj, setFirstJob, if_pos hj, List.cons_append]
    · rw [List.find?_cons_of_neg rest (by simp [hj])] at h
      rw [setFirstJob, if_neg hj, setFirstJob, if_neg hj, List.cons_append, ih h]

/-- C4: `createRetryJob` returns no new job when the original is missing,
not failed, or out of retries (in the last case the store keeps the same
jobs, the same next id, and the original stays failed); when eligible it
returns a fresh pending job with `is_retry = true`, id `next_job_id`,
retry count `retry_count + 1` and
`retry_delay = base_delay * backoff_factor ^ (retry_count + 1 - 1)` where
`base_delay` is the original record's stored retry delay (defaulting to
the configured base delay when the record predates the retry fields), and
it increments the original's retry count and stamps its `last_retry_at`
while leaving its terminal failed status untouched. -/
theorem createRetryJob_spec :
    ∀ (now : Rat) (s : Store) (oid : Nat),
    (findJob s oid = none → createRetryJob now s oid = (s, none)) ∧
    (∀ orig, findJob s oid = some orig → orig.status ≠ .failed →
      createRetryJob now s oid = (s, none)) ∧
    (∀ orig, findJob s oid = some orig → orig.status = .failed →
      orig.maxRetries.getD DEFAULT_MAX_RETRIES ≤ orig.retryCount.getD 0 →
      (createRetryJob now s oid).2 = none ∧
      (createRetryJob now s oid).1.jobs.length = s.jobs.length ∧
      (createRetryJob now s oid).1.nextJobId = s.nextJobId ∧
      jobStatusOf (createRetryJob now s oid).1 oid = some .failed) ∧
    (∀ orig, findJob s oid = some orig → orig.status = .failed →
      orig.retryCount.getD 0 < orig.maxRetries.getD DEFAULT_MAX_RETRIES →
      ∃ nj, (createRetryJob now s oid).2 = some nj ∧
        nj.status = .pending ∧
        nj.isRetry = some true ∧
        nj.id = s.nextJobId ∧
        nj.submittedAt = now ∧
        nj.retryCount = some (orig.retryCount.getD 0 + 1) ∧
        nj.retryDelay = some (orig.retryDelay.getD DEFAULT_RETRY_DELAY *
          RETRY_BACKOFF_FACTOR ^ (orig.retryCount.getD 0 + 1 - 1)) ∧
        ∃ oj, findJob (createRetryJob now s oid).1 oid = some oj ∧
          oj.status = .failed ∧
          oj.retryCount = some (orig.retryCount.getD 0 + 1) ∧
          oj.lastRetryAt = some (some now)) := by
  intro now s oid
  refine ⟨?_, ?_, ?_, ?_⟩
  · intro hnone
    unfold createRetryJob
    rw [hnone]
  · intro orig hf hst
    unfold createRetryJob
    rw [hf]
    dsimp only
    rw [if_pos hst]
  · intro orig hf hst hge
    have hnotlt : ¬ orig.retryCount.getD 0 < orig.maxRetries.getD DEFAULT_MAX_RETRIES :=
      Nat.not_lt.mpr hge
    unfold createRetryJob
    rw [hf]
    dsimp only
    rw [if_neg (by simp [hst]), if_pos hge]
    refine ⟨rfl, ?_, rfl, ?_⟩
    · exact setFirstJob_length oid defaultRetryFields s.jobs
    · unfold jobStatusOf findJob
      dsimp only
      rw [setFirstJob_find?_self oid defaultRetryFields s.jobs defaultRetryFields_id]
      unfold findJob at hf
      rw [hf]
      simp [defaultRetryFields, hst]
  · intro orig hf hst hlt
    have hnotge : ¬ orig.maxRetries.getD DEFAULT_MAX_RETRIES ≤ orig.retryCount.getD 0 :=
      Nat.not_le.mpr hlt
    unfold createRetryJob
    rw [hf]
    dsimp only
    rw [if_neg (by simp [hst]), if_neg hnotge]
    have hfound1 : (setFirstJob oid defaultRetryFields s.jobs).find?
        (fun j => decide (j.id = oid)) = some (defaultRetryFields orig) := by
      rw [setFirstJob_find?_self oid defaultRetryFields s.jobs defaultRetryFields_id]
      unfold findJob at hf
      rw [hf]
      rfl
    refine ⟨_, rfl, rfl, rfl, rfl, rfl, rfl, rfl, ?_⟩
    refine ⟨stampRetryOnOriginal (orig.retryCount.getD 0 + 1) now
      (defaultRetryFields orig), ?_,
      (by simp [stampRetryOnOriginal, defaultRetryFields, hst]), rfl, rfl⟩
    unfold findJob
    rw [appendLog_jobs, appendLog_jobs]
    dsimp only
    rw [setFirstJob_append_of_found oid _ _ _ (by rw [hfound1]; rfl)]
    rw [List.find?_append]
    rw [setFirstJob_find?_self oid _ _
      (stampRetryOnOriginal_id (orig.retryCount.getD 0 + 1) now)]
    rw [hfound1]
    rfl

/-- A failed first-generation job (no retry fields yet), id 1. -/
def failedJob : StoredJob :=
  { id := 1, packageName := "p", priority := .medium, status := .failed,
    estimatedTime := 10, actualTime := none, submittedBy := "u", submittedAt := 0,
    startedAt := none, completedAt := some 1, spackCommand := none,
    errorMessage := some "boom", dependencies := [], retryCount := none,
    maxRetries := none, lastRetryAt := none, retryDelay := none, isRetry := none,
    originalJobId := none }

/-- A store holding only `failedJob`, used as concrete input. -/
def failedStore : Store := { jobs := [failedJob], logs := [], nextJobId := 2 }

/-- C4 witness: retrying the failed job of `failedStore` creates a new
job whose retry count is 1 and leaves the original failed. -/
theorem createRetryJob_spec_witness :
    ((createRetryJob 5 failedStore 1).2.map (fun j => j.retryCount)) = some (some 1) ∧
    jobStatusOf (createRetryJob 5 failedStore 1).1 1 = some .failed := by
  obtain ⟨nj, h1, h2, h3, h4, h5, h6, h7, oj, h8, h9, h10, h11⟩ :=
    ((createRetryJob_spec 5 failedStore 1).2.2.2) failedJob rfl rfl (by decide)
  constructor
  · rw [h1]
    simp [h6, failedJob]
  · unfold jobStatusOf
    rw [h8]
    simp [h9]

/-! ## Claim C6 -/

/-- A store operation among those that append log entries (the Queue
Manager lifecycle operations factor through `updateJobStatus`). -/
inductive StoreOp where
  | create (now : Rat) (packageName : String) (priority : JobPriority)
      (estimatedTime : Rat) (submittedBy : String) (spackCommand : Option String)
      (dependencies : List String)
  | update (now : Rat) (jobId : Nat) (status : JobStatus)
      (startedAt completedAt actualTime : Option Rat) (errorMessage : Option String)
  | log (now : Rat) (jobId : Nat) (level message : String)
  | retry (now : Rat) (originalJobId : Nat)

/-- The store after one store operation. -/
def applyStoreOp (s : Store) : StoreOp → Store
  | .create now pkg prio est user cmd deps =>
    (createJob now s pkg prio est user cmd deps).1
  | .update now jid st sa ca at' em => (updateJobStatus now s jid st sa ca at' em).1
  | .log now jid lv msg => (addJobLog now s jid lv msg).1
  | .retry now oid => (createRetryJob now s oid).1

/-- The log ids of the store are exactly 1, 2, ..., n in list (that is,
append) order. -/
def logIdsCanonical (s : Store) : Prop :=
  s.logs.map (fun l => l.id) = List.range' 1 s.logs.length

theorem logIdsCanonical_appendLog (s : Store) (jid : Nat) (now : Rat)
    (lv msg : String) (h : logIdsCanonical s) :
    logIdsCanonical (appendLog s jid now lv msg) := by
  unfold logIdsCanonical at h ⊢
  unfold appendLog
  dsimp only
  rw [List.map_append, h, List.length_append]
  simp [List.range'_1_concat]
  omega

theorem applyStoreOp_canonical (s : Store) (op : StoreOp) (h : logIdsCanonical s) :
    logIdsCanonical (applyStoreOp s op) := by
  cases op with
  | create now pkg prio est user cmd deps =>
    show logIdsCanonical (createJob now s pkg prio est user cmd deps).1
    unfold createJob
    split
    · exact h
    · dsimp only
      exact logIdsCanonical_appendLog _ _ _ _ _ h
  | update now jid st sa ca at' em =>
    show logIdsCanonical (updateJobStatus now s jid st sa ca at' em).1
    unfold updateJobStatus
    split
    · exact h
    · dsimp only
      exact logIdsCanonical_appendLog _ _ _ _ _ h
  | log now jid lv msg =>
    show logIdsCanonical (addJobLog now s jid lv msg).1
    unfold addJobLog
    exact logIdsCanonical_appendLog _ _ _ _ _ h
  | retry now oid =>
    show logIdsCanonical (createRetryJob now s oid).1
    unfold createRetryJob
    split
    · exact h
    · split
      · exact h
      · dsimp only
        split
        · exact h
        · dsimp only
          exact logIdsCanonical_appendLog _ _ _ _ _
            (logIdsCanonical_appendLog _ _ _ _ _ h)

/-- C6 (amended): starting from the freshly initialised store, any
sequence of log-appending store operations — job creation, status
updates, explicit log appends, retry creation, but no cleanup — keeps the
log ids exactly 1, 2, ..., n in append order: every entry appended after
another has a strictly greater id and no two entries share an id.
(`cleanupOlderThan` breaks this, see the counterexample: it recomputes
ids from the shrunken length.) -/
theorem logIds_monotone_without_cleanup :
    ∀ (ops : List StoreOp),
    logIdsCanonical (ops.foldl applyStoreOp initStore) ∧
    ((ops.foldl applyStoreOp initStore).logs.map (fun l => l.id)).Pairwise (· < ·) := by
  have hall : ∀ (ops : List StoreOp) (s : Store), logIdsCanonical s →
      logIdsCanonical (ops.foldl applyStoreOp s) := by
    intro ops
    induction ops with
    | nil => intro s h; exact h
    | cons op rest ih =>
      intro s h
      exact ih _ (applyStoreOp_canonical s op h)
  intro ops
  have h := hall ops initStore rfl
  refine ⟨h, ?_⟩
  rw [h]
  exact List.pairwise_lt_range' _ _

/-- Stage 1 of the cleanup counterexample: submit package pkga (job 1,
log 1). -/
def cexLog1 : Store := (createJob 0 initStore "pkga" .medium 1 "u" none []).1

/-- Stage 2: job 1 starts (log 2). -/
def cexLog2 : Store := (markJobRunning 1 cexLog1 1).1

/-- Stage 3: job 1 completes at time 2 (log 3). -/
def cexLog3 : Store := (markJobCompleted 2 cexLog2 1 true none).1

/-- Stage 4: submit package pkgb (job 2, log 4). -/
def cexLog4 : Store := (createJob 3 cexLog3 "pkgb" .medium 1 "u" none []).1

/-- Stage 5: cleanup with a 7-day window at a time far in the future
removes job 1 and its logs 1 to 3, leaving only log 4. -/
def cexLog5 : Store := (cleanupOldJobs (7 * 86400 + 100) cexLog4 7).1

/-- Stage 6: one more log entry for job 2 — its id is recomputed as
length + 1 = 2. -/
def cexLog6 : Store := (addJobLog 700000 cexLog5 2 "INFO" "after cleanup").1

/-- C6 counterexample: in the reachable store `cexLog6` the log list is,
in append order, the surviving entry with id 4 followed by the entry
appended after the cleanup with id 2 — the later-appended entry has the
SMALLER id, so ids do not increase monotonically across a
`cleanupOlderThan`. -/
theorem logIds_cleanup_cex :
    cexLog6.logs.map (fun l => l.id) = [4, 2] ∧
    ¬ (cexLog6.logs.map (fun l => l.id)).Pairwise (· < ·) := by
  have h : cexLog6.logs.map (fun l => l.id) = [4, 2] := by
    norm_num +decide [cexLog6, cexLog5, cexLog4, cexLog3, cexLog2, cexLog1, createJob,
      markJobRunning, markJobCompleted, cleanupOldJobs, addJobLog, updateJobStatus,
      appendLog, setFirstJob, findJob, initStore, statusValue, applyStatusUpdate]
  refine ⟨h, ?_⟩
  rw [h]
  decide

/-! ## Claim C7 -/

theorem find?_eq_head?_filter {α : Type} (p : α → Bool) (l : List α) :
    l.find? p = (l.filter p).head? := by
  induction l with
  | nil => rfl
  | cons a t ih =>
    by_cases h : p a
    · rw [List.find?_cons_of_pos t h, List.filter_cons_of_pos h]
      rfl
    · rw [List.find?_cons_of_neg t (by simpa using h),
        List.filter_cons_of_neg (by simpa using h), ih]

theorem reverse_find?_eq_filter_getLast? {α : Type} (p : α → Bool) (l : List α) :
    l.reverse.find? p = (l.filter p).getLast? := by
  rw [find?_eq_head?_filter, List.filter_reverse, List.getLast?_eq_head?_reverse]

/-- The summary the claim describes, scanning the WHOLE captured output
for the last keyword-bearing line (the code scans only the final five
lines). -/
def specSummarizeFailure (returnCode : Int) (stdoutLines : List String) : String :=
  let base := "Exit code " ++ toString returnCode
  match (stdoutLines.filter containsErrorKeyword).getLast? with
  | some line => base ++ ": " ++ line.take 100
  | none => base

/-- Six captured lines whose only keyword-bearing line is the first. -/
def cexOutputLines : List String := ["error: boom", "a", "b", "c", "d", "e"]

/-- C7 counterexample: with the keyword line sixth from the end, the code
summary is the bare exit code — the window `stdout_lines[-5:]` misses the
line — while the claim (scanning the whole captured output) demands the
summary with the line attached. -/
theorem commandOutcome_lastfive_cex :
    commandOutcome 1 cexOutputLines = (false, some "Exit code 1") ∧
    specSummarizeFailure 1 cexOutputLines = "Exit code 1: error: boom" ∧
    ("Exit code 1" : String) ≠ "Exit code 1: error: boom" := by
  refine ⟨by decide, by decide, by decide⟩

/-- C7 (amended): a subprocess that exits normally with code 0 yields a
successful outcome (and the job is marked completed); any nonzero exit
code yields a failed outcome whose error summary is the exit code plus
the last line AMONG THE FINAL FIVE captured output lines that contains
one of error, failed, cannot, unable (case-insensitively), truncated to
its first 100 characters, and the job is marked failed. -/
theorem commandOutcome_spec :
    ∀ (rc : Int) (lines : List String) (now : Rat) (s : Store) (jid : Nat),
    (rc = 0 → commandOutcome rc lines = (true, none)) ∧
    (rc ≠ 0 → commandOutcome rc lines = (false, some (
      match ((lines.drop (lines.length - 5)).filter containsErrorKeyword).getLast? with
      | some l => "Exit code " ++ toString rc ++ ": " ++ l.take 100
      | none => "Exit code " ++ toString rc))) ∧
    (∀ j, findJob s jid = some j → j.status = .running →
      ∀ em, jobStatusOf (markJobCompleted now s jid (commandOutcome rc lines).1 em).1 jid =
        some (if rc = 0 then .completed else .failed)) := by
  intro rc lines now s jid
  refine ⟨?_, ?_, ?_⟩
  · intro hrc
    unfold commandOutcome
    rw [if_pos hrc]
  · intro hrc
    unfold commandOutcome
    rw [if_neg hrc]
    unfold summarizeFailure
    dsimp only
    rw [reverse_find?_eq_filter_getLast? containsErrorKeyword
      (lines.drop (lines.length - 5))]
  · intro j hf hst em
    have hrun : jobStatusOf s jid = some .running := by
      unfold jobStatusOf
      rw [hf]
      simp [hst]
    have h := markJobCompleted_running_status now s jid (commandOutcome rc lines).1 em hrun
    rw [h]
    by_cases hrc : rc = 0
    · simp [hrc, commandOutcome]
    · simp [hrc, commandOutcome]

/-- A running job with id 1, used as concrete input. -/
def runJob : StoredJob :=
  { id := 1, packageName := "bar", priority := .medium, status := .running,
    estimatedTime := 10, actualTime := none, submittedBy := "u", submittedAt := 0,
    startedAt := some 1, completedAt := none, spackCommand := none,
    errorMessage := none, dependencies := [], retryCount := none,
    maxRetries := none, lastRetryAt := none, retryDelay := none, isRetry := none,
    originalJobId := none }

/-- A store holding only `runJob`, used as concrete input. -/
def runStore : Store := { jobs := [runJob], logs := [], nextJobId := 2 }

/-- C7 witness: a zero exit code marks the running job of `runStore`
completed. -/
theorem commandOutcome_spec_witness :
    jobStatusOf (markJobCompleted 9 runStore 1 (commandOutcome 0 []).1 none).1 1 =
      some .completed := by
  have h := (commandOutcome_spec 0 [] 9 runStore 1).2.2 runJob rfl rfl none
  simpa using h

/-! ## Claim C8 -/

/-- C8, evaluated at the failing input: a subprocess that produces no
output and exits (with code 0) at elapsed time 25 seconds against a
timeout of `estimated_time 10 x multiplier 2 = 20` seconds.  Because
`readline()` blocks, the only timeout check happens at elapsed time 0,
before the blocking read; the read returns end-of-file only when the
process itself exits, so the loop breaks and the zero exit code yields a
successful outcome with the process never terminated by the worker —
contradicting the claim that such a job ends failed with the process
killed.  The third conjunct shows the loop does enforce the timeout when
a check happens after the deadline (that is, when output keeps
arriving). -/
theorem streamRun_silent_timeout_missed :
    (25 : Rat) > 10 * DEFAULT_JOB_TIMEOUT_MULTIPLIER ∧
    streamRun (10 * DEFAULT_JOB_TIMEOUT_MULTIPLIER) 0
        [{ checkElapsed := 0, line := none }] [] =
      { success := true, errorMessage := none, terminated := false, collected := [] } ∧
    streamRun (10 * DEFAULT_JOB_TIMEOUT_MULTIPLIER) 0
        [{ checkElapsed := 25, line := none }] [] =
      { success := false,
        errorMessage := some (timeoutMessage (10 * DEFAULT_JOB_TIMEOUT_MULTIPLIER)),
        terminated := true, collected := [] } := by
  refine ⟨by norm_num [DEFAULT_JOB_TIMEOUT_MULTIPLIER], ?_, ?_⟩
  · norm_num [streamRun, commandOutcome, DEFAULT_JOB_TIMEOUT_MULTIPLIER]
  · norm_num [streamRun, DEFAULT_JOB_TIMEOUT_MULTIPLIER]

/-! ## Claim C9 -/

/-- C9 counterexample: cancelling the nonexistent job id 5 of the empty
store produces the SUCCESS envelope carrying cancelled = false, not the
error envelope with success = false that the claim requires for an
unknown job id. -/
theorem handleCancelJob_unknown_cex :
    (handleCancelJob 0 initStore (some 5)).2 = CancelRpcResponse.ok false := by
  decide

/-- C9 (amended): for a cancel request whose job id does not identify an
existing job, the handler replies with the success envelope whose data
payload is cancelled = false (the Queue Manager failure is reported
inside the data, not as an RPC error); only a missing or falsy job_id
parameter (or a raised exception) produces the error envelope. -/
theorem handleCancelJob_unknown_envelope :
    ∀ (now : Rat) (s : Store) (jid : Nat), jid ≠ 0 → findJob s jid = none →
    handleCancelJob now s (some jid) = (s, .ok false) := by
  intro now s jid hjid hf
  have hc : cancelJob now s jid = (s, false) := by
    unfold cancelJob
    rw [hf]
  unfold handleCancelJob
  dsimp only
  rw [if_neg hjid, hc]

/-- C9 witness: the empty store and job id 5. -/
theorem handleCancelJob_unknown_envelope_witness :
    handleCancelJob 0 initStore (some 5) = (initStore, .ok false) :=
  handleCancelJob_unknown_envelope 0 initStore 5 (by decide) rfl

/-! ## Claim C10 -/

/-- C10: successfully cancelling a pending job stamps `completed_at` with
the cancellation time while leaving `started_at` exactly as it was (null
for a job that never started), and `cleanupOlderThan` removes a cancelled
job whose `completed_at` is older than the retention cutoff exactly as it
removes completed and failed jobs. -/
theorem cancelJob_stamps_and_cleanup :
    ∀ (now : Rat) (s : Store) (jid : Nat) (j : StoredJob) (keepDays : Nat) (t : Rat),
    (findJob s jid = some j → j.status = .pending →
      (cancelJob now s jid).2 = true ∧
      ∃ j2, findJob (cancelJob now s jid).1 jid = some j2 ∧
        j2.status = .cancelled ∧ j2.completedAt = some now ∧
        j2.startedAt = j.startedAt) ∧
    (j ∈ s.jobs →
      (j.status = .completed ∨ j.status = .failed ∨ j.status = .cancelled) →
      j.completedAt = some t → t < now - (keepDays : Rat) * 86400 →
      j ∉ (cleanupOldJobs now s keepDays).1.jobs) := by
  intro now s jid j keepDays t
  constructor
  · intro hf hst
    constructor
    · exact (cancelJob_true_iff now s jid).mpr (by unfold jobStatusOf; rw [hf]; simp [hst])
    · refine ⟨applyStatusUpdate .cancelled none (some now) none none j, ?_, rfl, rfl, rfl⟩
      unfold cancelJob
      rw [hf]
      dsimp only
      rw [if_neg (by simp [hst])]
      exact updateJobStatus_found_record now s jid _ _ _ _ _ j hf
  · intro hmem hstat hca hlt hmem2
    unfold cleanupOldJobs at hmem2
    dsimp only at hmem2
    have hp := (List.mem_filter.mp hmem2).2
    rw [hca] at hp
    rcases hstat with h | h | h <;> simp [h, hlt] at hp

/-- An old cancelled job (cancelled at time 5), id 1. -/
def oldCancelledJob : StoredJob :=
  { id := 1, packageName := "old", priority := .medium, status := .cancelled,
    estimatedTime := 10, actualTime := none, submittedBy := "u", submittedAt := 0,
    startedAt := none, completedAt := some 5, spackCommand := none,
    errorMessage := none, dependencies := [], retryCount := none,
    maxRetries := none, lastRetryAt := none, retryDelay := none, isRetry := none,
    originalJobId := none }

/-- A store holding only `oldCancelledJob`, used as concrete input. -/
def oldCancelledStore : Store := { jobs := [oldCancelledJob], logs := [], nextJobId := 2 }

/-- C10 witness: the pending job of `pendStore` cancels successfully, and
the cancelled job of `oldCancelledStore` is removed by a 7-day cleanup
run 10 days later. -/
theorem cancelJob_stamps_and_cleanup_witness :
    (cancelJob 5 pendStore 1).2 = true ∧
    oldCancelledJob ∉ (cleanupOldJobs (10 * 86400) oldCancelledStore 7).1.jobs := by
  constructor
  · exact ((cancelJob_stamps_and_cleanup 5 pendStore 1 pendJob 7 0).1 rfl rfl).1
  · exact (cancelJob_stamps_and_cleanup (10 * 86400) oldCancelledStore 1
      oldCancelledJob 7 5).2 (List.mem_cons_self _ _) (Or.inr (Or.inr rfl)) rfl
      (by norm_num)
